import Mathlib

/-!
# Verification of the scan orchestration and consolidation engine

Shallow embedding, in Lean 4, of the core components of the
`oss-health-monitor` service, together with proofs about them:

* `deduplicate_vulnerabilities` — the orchestrator's merge/dedup pass
  (`app/services/scanner_orchestrator.py`, `_deduplicate_vulnerabilities`);
* `scan_repository` — the orchestrator's fan-out/fan-in consolidation
  (`app/services/scanner_orchestrator.py`, `scan_repository`), with each
  backend invocation represented by its result: either a returned
  `ScannerOutput` or a raised exception (`Except.error` with the message);
* `extract_severity` — the OSV backend's CVSS-threshold severity mapping
  (`app/integrations/osv_scanner.py`, `_extract_severity`);
* `temporal_metrics` — the temporal-age part of the metrics calculator
  (`app/services/metrics_calculator.py`, `calculate_metrics`);
* `make_key` / `cache_set` / `cache_get` — the scan cache
  (`app/services/cache.py`, `ScanCache`).

Python `dict`s preserve insertion order and update values in place, so the
`seen` map of the dedup pass and the cache store are embedded as association
lists with position-preserving update (`setAssoc`) and end insertion.
Python truthiness tests on optional fields (`if vuln.cve_id:` and the like)
are embedded by `truthyStr` / `truthyScore`: `None`, the empty string and
`0.0` are falsy.  Python floats are embedded as `ℚ` (every comparison the
code performs is exact at the values involved).  Python `datetime`s are
embedded as `PyDatetime`: an instant in Unix seconds together with
whether the object is timezone-aware, because Python refuses to subtract
a timezone-aware datetime from a naive one (`TypeError`) — `utcnow()` is
naive while the OSV backend parses publication timestamps with a
`+00:00` offset, producing aware ones — so datetime subtraction is
fallible (`Except`), and so is the temporal part of the metrics
calculator built on it.
-/

namespace OssHealth

/-- First value bound to key `k`, mirroring Python `dict.get` /
`key in seen` on the embedded insertion-ordered map. -/
def assocFind {α β : Type} [DecidableEq α] : List (α × β) → α → Option β
  | [], _ => none
  | (k, v) :: rest, a => if k = a then some v else assocFind rest a

/-- In-place update of the first binding of `k`, appending at the end when
`k` is absent: exactly a Python `dict.__setitem__`. -/
def setAssoc {α β : Type} [DecidableEq α] : List (α × β) → α → β → List (α × β)
  | [], k, v => [(k, v)]
  | (k', v') :: rest, k, v =>
      if k' = k then (k, v) :: rest else (k', v') :: setAssoc rest k v

/-- Units digit: keys of the embedded map, in insertion order
(Python `dict` iteration order; `list(seen.values())` follows it). -/
def keysOf {α β : Type} (m : List (α × β)) : List α := m.map Prod.fst

/-- Python `datetime`: the instant in Unix seconds, together with
whether the object is timezone-aware (`tzinfo` set).  Two datetimes with
the same instant but different awareness are different Python objects
with different arithmetic behavior. -/
structure PyDatetime where
  seconds : Int
  aware : Bool
deriving DecidableEq, Repr

/-- `datetime.utcnow()` (`metrics_calculator.py`, line 38): the current
UTC instant as a timezone-naive datetime. -/
def utcnow (nowSeconds : Int) : PyDatetime := PyDatetime.mk nowSeconds false

/-- Python datetime subtraction `a - b`, in seconds: defined when both
operands are naive or both aware; subtracting across raises
`TypeError`. -/
def pyDatetimeSub (a b : PyDatetime) : Except String Int :=
  if a.aware = b.aware then Except.ok (a.seconds - b.seconds)
  else Except.error "TypeError: cannot subtract offset-naive and offset-aware datetimes"

/-- Normalized vulnerability record (`app/integrations/base.py`,
`@dataclass Vulnerability`).  Optional fields are `Option`; `cvss_score`
is `ℚ` for the Python `float`, `published_at` a `PyDatetime`. -/
structure Vulnerability where
  package_name : String
  package_version : String
  ecosystem : String
  vulnerability_id : String
  cve_id : Option String := none
  severity : String := "UNKNOWN"
  cvss_score : Option ℚ := none
  summary : Option String := none
  published_at : Option PyDatetime := none
  fixed_version : Option String := none
  source : String := "unknown"
deriving DecidableEq, Repr

/-- Python truthiness of an optional string: `None` and `""` are falsy. -/
def truthyStr : Option String → Bool
  | none => false
  | some s => s ≠ ""

/-- Python truthiness of an optional float score: `None` and `0.0` are
falsy. -/
def truthyScore : Option ℚ → Bool
  | none => false
  | some q => q ≠ 0

/-- Dedup key (`_deduplicate_vulnerabilities`, lines 125–128):
`(package_name, package_version, cve_id)` when `vuln.cve_id` is truthy,
else `(package_name, package_version, vulnerability_id)`. -/
def vulnKey (v : Vulnerability) : String × String × String :=
  if truthyStr v.cve_id then
    (v.package_name, v.package_version, v.cve_id.getD "")
  else
    (v.package_name, v.package_version, v.vulnerability_id)

/-- The `if`/`elif` replacement chain of `_deduplicate_vulnerabilities`
(lines 136–143): the incoming record replaces the kept one when the first
matching rule fires, each rule a truthiness test. -/
def replacePref (incoming existing : Vulnerability) : Bool :=
  if truthyScore incoming.cvss_score && !truthyScore existing.cvss_score then
    true
  else if truthyStr incoming.fixed_version && !truthyStr existing.fixed_version then
    true
  else if truthyStr incoming.summary && !truthyStr existing.summary then
    true
  else
    false

/-- One loop iteration of `_deduplicate_vulnerabilities`: insert at the end
when the key is new, otherwise replace in place when `replacePref` fires. -/
def dedupInsert (seen : List ((String × String × String) × Vulnerability))
    (v : Vulnerability) : List ((String × String × String) × Vulnerability) :=
  match assocFind seen (vulnKey v) with
  | none => seen ++ [(vulnKey v, v)]
  | some existing =>
      if replacePref v existing then setAssoc seen (vulnKey v) v else seen

/-- The `seen` map after the whole loop of `_deduplicate_vulnerabilities`. -/
def dedupMap (vulnerabilities : List Vulnerability) :
    List ((String × String × String) × Vulnerability) :=
  vulnerabilities.foldl dedupInsert []

/-- `_deduplicate_vulnerabilities` (lines 104–145): the survivors,
`list(seen.values())`. -/
def deduplicate_vulnerabilities (vulnerabilities : List Vulnerability) :
    List Vulnerability :=
  (dedupMap vulnerabilities).map Prod.snd

/-! ## Spec-side formulations for the deduplication claims -/

/-- From the spec's words: the incoming duplicate replaces the kept record
exactly when the first of the three rules matches, checked in fixed order
— (1) incoming has a CVSS score and kept does not, (2) else incoming has a
fixed version and kept does not, (3) else incoming has a summary and kept
does not — with "has" the code's truthiness notion of presence. -/
def specReplace (incoming kept : Vulnerability) : Bool :=
  if truthyScore incoming.cvss_score && !truthyScore kept.cvss_score then
    true
  else if truthyStr incoming.fixed_version && !truthyStr kept.fixed_version then
    true
  else if truthyStr incoming.summary && !truthyStr kept.summary then
    true
  else
    false

/-- From the spec's words: how one later record with an already-seen key
acts on the kept record — it replaces it exactly when `specReplace` fires,
otherwise the kept record is unchanged. -/
def specStep (kept inc : Vulnerability) : Vulnerability :=
  if specReplace inc kept then inc else kept

/-- From the spec's words: the record surviving for one key, given the
sub-sequence of inputs having that key — the first record as-is, each later
one acting by `specStep`: it replaces the kept record exactly when
`specReplace` fires, otherwise the kept record is unchanged. -/
def specSurvivor : List Vulnerability → Option Vulnerability
  | [] => none
  | first :: later => some (later.foldl specStep first)

/-- From the spec's words: the dedup key — (package name, package version,
CVE identifier) when a CVE identifier is present (presence being the
code's truthiness notion: not `None` and not empty), otherwise (package
name, package version, backend-native vulnerability identifier). -/
def specKey (v : Vulnerability) : String × String × String :=
  match v.cve_id with
  | some c =>
      if c = "" then (v.package_name, v.package_version, v.vulnerability_id)
      else (v.package_name, v.package_version, c)
  | none => (v.package_name, v.package_version, v.vulnerability_id)

/-- Append a key at the end unless it is already present. -/
def addNew {α : Type} [DecidableEq α] (acc : List α) (k : α) : List α :=
  if k ∈ acc then acc else acc ++ [k]

/-- From the spec's words: the keys of the input, in insertion order of
first occurrence, each key once. -/
def firstOccs {α : Type} [DecidableEq α] (l : List α) : List α :=
  l.foldl addNew []

/-! ## Orchestration (`scan_repository`) -/

/-- `ScannerOutput` (`app/integrations/base.py`): the value a backend
returns.  `raw_output` is audit-only and never read by the orchestrator,
so it is not carried. -/
structure ScannerOutput where
  status : String
  vulnerabilities : List Vulnerability
  execution_time_ms : Int
  error_message : Option String := none
deriving DecidableEq, Repr

/-- One backend invocation, as seen by `asyncio.gather(...,
return_exceptions=True)`: either the returned `ScannerOutput` or the
raised exception, carried as its text (`str(result)`). -/
abbrev BackendResult := Except String ScannerOutput

instance : DecidableEq BackendResult := fun a b =>
  match a, b with
  | Except.error x, Except.error y => decidable_of_iff (x = y) (by simp)
  | Except.error _, Except.ok _ => isFalse (by simp)
  | Except.ok _, Except.error _ => isFalse (by simp)
  | Except.ok o, Except.ok p => decidable_of_iff (o = p) (by simp)

/-- One entry of the `scanner_results` dict built in `scan_repository`
(lines 70–86). -/
structure ScannerEntry where
  status : String
  vulnerabilities_found : Nat
  execution_time_ms : Int
  error : Option String := none
deriving DecidableEq, Repr

/-- The dict returned by `scan_repository` (lines 93–96). -/
structure ConsolidatedResult where
  scanner_results : List (String × ScannerEntry)
  vulnerabilities : List Vulnerability
deriving DecidableEq, Repr

/-- Backend selection (`scan_repository`, lines 52–60): `"osv"` and
`"both"` select the scanner registered under `"osv"` when present, then
`"github"` and `"both"` the one under `"github"`.  The registry is
`self.scanners`, an insertion-ordered name-keyed map; each backend is
represented by the result its invocation will produce. -/
def scannersToRun (preference : String) (registry : List (String × BackendResult)) :
    List (String × BackendResult) :=
  (if preference = "osv" ∨ preference = "both" then
    match assocFind registry "osv" with
    | some r => [("osv", r)]
    | none => []
  else []) ++
  (if preference = "github" ∨ preference = "both" then
    match assocFind registry "github" with
    | some r => [("github", r)]
    | none => []
  else [])

/-- Per-backend entry construction (lines 71–86): an exception becomes the
synthetic failed entry with zero counts and the exception text; a returned
output is summarized, its `error` recorded only when `error_message` is
truthy (`if scanner_output.error_message:`). -/
def entryOfResult : BackendResult → ScannerEntry
  | .error e => ⟨"failed", 0, 0, some e⟩
  | .ok o =>
      ⟨o.status, o.vulnerabilities.length, o.execution_time_ms,
        if truthyStr o.error_message then o.error_message else none⟩

/-- Vulnerabilities a backend result contributes to the merged pool
(line 88): only returned outputs extend `all_vulnerabilities`. -/
def vulnsOfResult : BackendResult → List Vulnerability
  | .error _ => []
  | .ok o => o.vulnerabilities

/-- `scan_repository` (lines 34–96).  The repository path is only handed
through to the backends, never inspected by the orchestrator, so it does
not appear; each selected backend is represented by its invocation
result. -/
def scan_repository (preference : String) (registry : List (String × BackendResult)) :
    ConsolidatedResult :=
  let toRun := scannersToRun preference registry
  { scanner_results := toRun.map (fun p => (p.1, entryOfResult p.2))
    vulnerabilities :=
      deduplicate_vulnerabilities
        (toRun.foldl (fun acc p => acc ++ vulnsOfResult p.2) []) }

/-- A backend result that is a failure in the wide sense: a raised
exception, or a returned outcome whose status is `failed` or `timeout`. -/
def failedOrTimeout : BackendResult → Bool
  | .error _ => true
  | .ok o => o.status = "failed" || o.status = "timeout"

/-! ## OSV backend severity mapping (`_extract_severity`) -/

/-- One entry of `vuln["database_specific"]["severity"]` in the OSV
backend's raw output: its `type` tag and optional numeric `score`. -/
structure SeverityEntry where
  type : String
  score : Option ℚ := none
deriving DecidableEq, Repr

/-- The threshold ladder of `_extract_severity` (lines 181–188), reached
only for a truthy score. -/
def severityBucket (score : ℚ) : String :=
  if score ≥ 9 then "CRITICAL"
  else if score ≥ 7 then "HIGH"
  else if score ≥ 4 then "MODERATE"
  else "LOW"

/-- `_extract_severity` (`app/integrations/osv_scanner.py`, lines
172–191): walk the severity entries, stop at the first `CVSS_V3` entry,
take its score; the bucket ladder runs only under the truthiness test
`if cvss_score:`, so a missing or `0.0` score leaves `"UNKNOWN"`. -/
def extract_severity : List SeverityEntry → String × Option ℚ
  | [] => ("UNKNOWN", none)
  | e :: rest =>
      if e.type = "CVSS_V3" then
        match e.score with
        | some s => if s ≠ 0 then (severityBucket s, some s) else ("UNKNOWN", some s)
        | none => ("UNKNOWN", none)
      else extract_severity rest

/-- `_extract_published_date` (`app/integrations/osv_scanner.py`, lines
212–219) on a successfully parsed timestamp: `datetime.fromisoformat` on
a string carrying a `+00:00` offset returns a timezone-AWARE datetime.
(The string-level parsing itself is not needed by any claim; this models
the shape of the value the repository's only producer of
`published_at` constructs.) -/
def extract_published_date (seconds : Int) : PyDatetime :=
  PyDatetime.mk seconds true

/-! ## Metrics calculator, temporal part (`calculate_metrics`) -/

/-- The age-collection loop of `calculate_metrics` (lines 37–43): for
each vulnerability with a (truthy) publication timestamp, compute
`(now - vuln.published_at).days` — whole days, floor division of the
timedelta — and append it.  The subtraction is Python datetime
subtraction: if it raises `TypeError` (naive `now` against an aware
`published_at`), the exception propagates out of `calculate_metrics` at
the first offending element. -/
def vulnAges (now : PyDatetime) : List Vulnerability → Except String (List Int)
  | [] => Except.ok []
  | v :: rest =>
      match v.published_at with
      | none => vulnAges now rest
      | some p =>
          match pyDatetimeSub now p with
          | Except.error e => Except.error e
          | Except.ok d =>
              match vulnAges now rest with
              | Except.error e => Except.error e
              | Except.ok ages => Except.ok (Int.fdiv d 86400 :: ages)

/-- Python `statistics.mean` on a list of ints: exact rational mean. -/
def pyMean (l : List Int) : ℚ := (l.sum : ℚ) / l.length

/-- Insert into a sorted list of ints, keeping it sorted. -/
def insertSorted (a : Int) : List Int → List Int
  | [] => [a]
  | b :: t => if a ≤ b then a :: b :: t else b :: insertSorted a t

/-- Python `sorted` on a list of ints: a sorted copy (insertion sort —
any correct sort gives the same list of ints). -/
def pySorted (l : List Int) : List Int := l.foldr insertSorted []

/-- Python `statistics.median`: sort; odd length takes the middle element,
even length the average of the two middle elements. -/
def pyMedian (l : List Int) : ℚ :=
  let s := pySorted l
  let n := l.length
  if n % 2 = 1 then ((s.getD (n / 2) 0 : Int) : ℚ)
  else (((s.getD (n / 2 - 1) 0 : Int) : ℚ) + ((s.getD (n / 2) 0 : Int) : ℚ)) / 2

/-- Python builtin `max` over a non-empty list (defaulting to 0 on the
never-reached empty case). -/
def pyMax : List Int → Int
  | [] => 0
  | h :: t => t.foldl max h

/-- The `temporal_metrics` dict of `calculate_metrics` (lines 45–53):
three optional values, all populated when the age list is non-empty and
all `None` otherwise. -/
structure TemporalMetrics where
  mean : Option ℚ
  median : Option ℚ
  max : Option Int
deriving DecidableEq, Repr

/-- Lines 36–53 of `calculate_metrics`: collect the ages of timestamped
vulnerabilities and report mean/median/max, or three explicit `None`s
when no vulnerability carries a timestamp; a `TypeError` raised by the
datetime subtraction in the collection loop propagates out of the
call. -/
def temporal_metrics (now : PyDatetime) (vulnerabilities : List Vulnerability) :
    Except String TemporalMetrics :=
  match vulnAges now vulnerabilities with
  | Except.error e => Except.error e
  | Except.ok ages =>
      if ages = [] then Except.ok (TemporalMetrics.mk none none none)
      else
        Except.ok (TemporalMetrics.mk (some (pyMean ages)) (some (pyMedian ages))
          (some (pyMax ages)))

/-! ## Scan cache (`ScanCache`) -/

/-- `_make_key` (`app/services/cache.py`, lines 22–36) builds the string
`f"{owner}/{name}@{ref}#{commit_sha}"` and returns its SHA-256 digest.
The digest is a deterministic function of this string — equal strings
give equal keys — so the cache is analyzed at the pre-image level: this
embedding keys the store by the string itself. -/
def make_key (owner name ref commit_sha : String) : String :=
  owner ++ "/" ++ name ++ "@" ++ ref ++ "#" ++ commit_sha

/-- `ScanCache.set` (lines 54–66): `self.cache[key] = result` on the
TTL dict.  Expiry and capacity eviction concern the passage of time and
are not modelled; within one instant the store is a key-value map. -/
def cache_set {α : Type} (cache : List (String × α))
    (owner name ref commit_sha : String) (result : α) : List (String × α) :=
  setAssoc cache (make_key owner name ref commit_sha) result

/-- `ScanCache.get` (lines 38–52): `self.cache.get(key)`. -/
def cache_get {α : Type} (cache : List (String × α))
    (owner name ref commit_sha : String) : Option α :=
  assocFind cache (make_key owner name ref commit_sha)

/-- First split of a character list at a character: `none` when the
character does not occur, else the parts before and after its first
occurrence.  Used to show the cache-key serialization is parseable when
the components avoid the separator characters. -/
def splitFirst (c : Char) : List Char → Option (List Char × List Char)
  | [] => none
  | x :: xs =>
      if x = c then some ([], xs)
      else
        match splitFirst c xs with
        | none => none
        | some (a, b) => some (x :: a, b)

/-- Parse a cache-key string back into its four components: owner up to
the first `/`, name up to the first `@` after it, ref up to the first `#`
after that, commit SHA the rest. -/
def parseKey (l : List Char) : Option (List Char × List Char × List Char × List Char) :=
  match splitFirst '/' l with
  | none => none
  | some (o, rest) =>
      match splitFirst '@' rest with
      | none => none
      | some (n, rest2) =>
          match splitFirst '#' rest2 with
          | none => none
          | some (r, s) => some (o, n, r, s)

/-! ## Association-list lemmas -/

theorem assocFind_setAssoc {α β : Type} [DecidableEq α] (m : List (α × β)) (k a : α) (v : β) :
    assocFind (setAssoc m k v) a = if k = a then some v else assocFind m a := by
  induction m with
  | nil => simp [setAssoc, assocFind]
  | cons p rest ih =>
      obtain ⟨k', v'⟩ := p
      by_cases hk : k' = k
      · subst hk
        by_cases h : k' = a <;> simp [setAssoc, assocFind, h]
      · by_cases h : k' = a
        · have h2 : ¬a = k := fun hh => hk (h.trans hh)
          have h2b : ¬k = a := fun hh => h2 hh.symm
          simp [setAssoc, assocFind, hk, h, h2, h2b]
        · by_cases h3 : k = a
          · subst h3
            simp [setAssoc, assocFind, hk, h, ih]
          · simp [setAssoc, assocFind, hk, h, h3, ih]

theorem assocFind_append {α β : Type} [DecidableEq α] (l1 l2 : List (α × β)) (a : α) :
    assocFind (l1 ++ l2) a =
      match assocFind l1 a with
      | some w => some w
      | none => assocFind l2 a := by
  induction l1 with
  | nil => simp [assocFind]
  | cons p rest ih =>
      obtain ⟨k, v⟩ := p
      by_cases h : k = a <;> simp [assocFind, h, ih]

theorem assocFind_eq_none_iff {α β : Type} [DecidableEq α] (m : List (α × β)) (a : α) :
    assocFind m a = none ↔ a ∉ keysOf m := by
  induction m with
  | nil => simp [assocFind, keysOf]
  | cons p rest ih =>
      obtain ⟨k, v⟩ := p
      by_cases h : k = a
      · subst h
        simp [assocFind, keysOf]
      · have h2 : ¬a = k := fun hh => h hh.symm
        simp [assocFind, keysOf, h, h2, ih]

theorem keysOf_append {α β : Type} (l1 l2 : List (α × β)) :
    keysOf (l1 ++ l2) = keysOf l1 ++ keysOf l2 := by
  simp [keysOf]

theorem keysOf_setAssoc_of_mem {α β : Type} [DecidableEq α]
    (m : List (α × β)) (k : α) (v : β) (h : k ∈ keysOf m) :
    keysOf (setAssoc m k v) = keysOf m := by
  induction m with
  | nil => simp [keysOf] at h
  | cons p rest ih =>
      obtain ⟨k', v'⟩ := p
      by_cases hk : k' = k
      · simp [setAssoc, hk, keysOf]
      · have hmem : k ∈ keysOf rest := by
          rcases (by simpa [keysOf] using h) with h1 | h2
          · exact absurd h1.symm hk
          · simpa [keysOf] using h2
        have hrec := ih hmem
        simp [keysOf] at hrec
        simp [setAssoc, hk, keysOf, hrec]

theorem mem_setAssoc {α β : Type} [DecidableEq α]
    (m : List (α × β)) (k : α) (v : β) (p : α × β) (h : p ∈ setAssoc m k v) :
    p ∈ m ∨ p = (k, v) := by
  induction m with
  | nil => simpa [setAssoc] using h
  | cons q rest ih =>
      obtain ⟨k', v'⟩ := q
      by_cases hk : k' = k
      · rcases (by simpa [setAssoc, hk] using h) with h1 | h2
        · right; exact h1
        · left; exact List.mem_cons_of_mem _ h2
      · rcases (by simpa [setAssoc, hk] using h) with h1 | h2
        · left; simp [h1]
        · rcases ih h2 with h3 | h3
          · left; exact List.mem_cons_of_mem _ h3
          · right; exact h3

/-! ## Deduplication lemmas -/

theorem specReplace_eq_replacePref : specReplace = replacePref := rfl

theorem specKey_eq_vulnKey (v : Vulnerability) : specKey v = vulnKey v := by
  cases h : v.cve_id with
  | none => simp [specKey, vulnKey, truthyStr, h]
  | some c => by_cases hc : c = "" <;> simp [specKey, vulnKey, truthyStr, h, hc]

theorem dedupInsert_find_other (m : List ((String × String × String) × Vulnerability))
    (v : Vulnerability) (k : String × String × String) (hne : ¬vulnKey v = k) :
    assocFind (dedupInsert m v) k = assocFind m k := by
  unfold dedupInsert
  cases hm : assocFind m (vulnKey v) with
  | none =>
      rw [assocFind_append]
      cases hk : assocFind m k <;> simp [assocFind, hne]
  | some e =>
      by_cases hr : replacePref v e
      · simp [hr, assocFind_setAssoc, hne]
      · simp [hr]

theorem foldl_dedupInsert_find (vs : List Vulnerability)
    (m : List ((String × String × String) × Vulnerability))
    (k : String × String × String) :
    assocFind (vs.foldl dedupInsert m) k =
      match assocFind m k with
      | some e => some ((vs.filter (fun v => vulnKey v = k)).foldl specStep e)
      | none => specSurvivor (vs.filter (fun v => vulnKey v = k)) := by
  induction vs generalizing m with
  | nil => cases hm : assocFind m k <;> simp [specSurvivor, hm]
  | cons v vs ih =>
      by_cases hv : vulnKey v = k
      · subst hv
        cases hm : assocFind m (vulnKey v) with
        | none =>
            have hstep : dedupInsert m v = m ++ [(vulnKey v, v)] := by
              simp [dedupInsert, hm]
            have hfind : assocFind (dedupInsert m v) (vulnKey v) = some v := by
              rw [hstep, assocFind_append, hm]
              simp [assocFind]
            rw [List.foldl_cons, ih, hfind]
            simp [specSurvivor, List.filter_cons]
        | some e =>
            by_cases hr : replacePref v e
            · have hstep : dedupInsert m v = setAssoc m (vulnKey v) v := by
                simp [dedupInsert, hm, hr]
              have hfind : assocFind (dedupInsert m v) (vulnKey v) = some v := by
                rw [hstep, assocFind_setAssoc]
                simp
              rw [List.foldl_cons, ih, hfind]
              simp [List.filter_cons, specStep, specReplace_eq_replacePref, hr]
            · have hstep : dedupInsert m v = m := by
                simp [dedupInsert, hm, hr]
              rw [List.foldl_cons, ih, hstep, hm]
              simp [List.filter_cons, specStep, specReplace_eq_replacePref, hr]
      · rw [List.foldl_cons, ih, dedupInsert_find_other m v k hv]
        simp [List.filter_cons, hv]

theorem keysOf_dedupInsert (m : List ((String × String × String) × Vulnerability))
    (v : Vulnerability) :
    keysOf (dedupInsert m v) = addNew (keysOf m) (vulnKey v) := by
  unfold dedupInsert addNew
  cases hm : assocFind m (vulnKey v) with
  | none =>
      have hnot : vulnKey v ∉ List.map Prod.fst m := (assocFind_eq_none_iff _ _).1 hm
      simp [keysOf_append, keysOf, hnot]

  | some e =>
      have hmem : vulnKey v ∈ keysOf m := by
        by_contra hcon
        rw [(assocFind_eq_none_iff m (vulnKey v)).2 hcon] at hm
        cases hm
      by_cases hr : replacePref v e
      · simp [hr, hmem, keysOf_setAssoc_of_mem _ _ _ hmem]
      · simp [hr, hmem]

theorem keysOf_foldl_dedupInsert (vs : List Vulnerability)
    (m : List ((String × String × String) × Vulnerability)) :
    keysOf (vs.foldl dedupInsert m) =
      vs.foldl (fun acc v => addNew acc (vulnKey v)) (keysOf m) := by
  induction vs generalizing m with
  | nil => rfl
  | cons v vs ih =>
      rw [List.foldl_cons, ih, keysOf_dedupInsert, List.foldl_cons]

theorem goodMap_foldl (vs : List Vulnerability)
    (m : List ((String × String × String) × Vulnerability))
    (hm : ∀ p ∈ m, vulnKey p.2 = p.1) :
    ∀ p ∈ vs.foldl dedupInsert m, vulnKey p.2 = p.1 := by
  induction vs generalizing m with
  | nil => exact hm
  | cons v vs ih =>
      rw [List.foldl_cons]
      apply ih
      intro p hp
      revert hp
      unfold dedupInsert
      cases hmf : assocFind m (vulnKey v) with
      | none =>
          intro hp
          rcases List.mem_append.1 hp with h1 | h2
          · exact hm p h1
          · have hp2 : p = (vulnKey v, v) := by simpa using h2
            subst hp2
            rfl
      | some e =>
          by_cases hr : replacePref v e
          · simp only [hr, if_true]
            intro hp
            rcases mem_setAssoc m (vulnKey v) v p hp with h1 | h2
            · exact hm p h1
            · subst h2
              rfl
          · simp only [hr, if_false]
            exact hm p

theorem nodup_foldl_addKey {α : Type} [DecidableEq α] (l : List α) (acc : List α)
    (h : acc.Nodup) :
    (l.foldl addNew acc).Nodup := by
  induction l generalizing acc with
  | nil => exact h
  | cons k l ih =>
      rw [List.foldl_cons]
      apply ih
      by_cases hk : k ∈ acc
      · simpa [addNew, hk] using h
      · simp [addNew, hk, List.nodup_append, h, List.disjoint_singleton]

theorem foldl_dedupInsert_rebuild
    (m : List ((String × String × String) × Vulnerability)) :
    ∀ acc : List ((String × String × String) × Vulnerability),
      (∀ p ∈ m, vulnKey p.2 = p.1) →
      (keysOf acc ++ keysOf m).Nodup →
      (m.map Prod.snd).foldl dedupInsert acc = acc ++ m := by
  induction m with
  | nil => intro acc _ _; simp
  | cons p rest ih =>
      intro acc hgood hnd
      obtain ⟨k, x⟩ := p
      have hk : vulnKey x = k := hgood (k, x) (by simp)
      have hknotacc : k ∉ keysOf acc := by
        intro hmem
        rcases List.nodup_append.1 hnd with ⟨_, _, hdisj⟩
        exact hdisj hmem (by simp [keysOf])
      have hfind : assocFind acc (vulnKey x) = none := by
        rw [hk]
        exact (assocFind_eq_none_iff _ _).2 hknotacc
      have hstep : dedupInsert acc x = acc ++ [(k, x)] := by
        unfold dedupInsert
        rw [hfind, hk]
      rw [List.map_cons, List.foldl_cons, hstep]
      have hrec := ih (acc ++ [(k, x)])
        (fun q hq => hgood q (List.mem_cons_of_mem _ hq))
        (by simpa [keysOf_append, keysOf, List.append_assoc] using hnd)
      rw [hrec]
      simp

/-! ## Temporal-metrics lemmas -/

theorem le_foldl_max (t : List Int) :
    ∀ h a : Int, a ≤ h → a ≤ t.foldl max h := by
  induction t with
  | nil => intro h a ha; simpa using ha
  | cons x t ih =>
      intro h a ha
      exact ih (max h x) a (le_trans ha (le_max_left h x))

theorem foldl_max_mem (t : List Int) :
    ∀ h : Int, t.foldl max h ∈ h :: t := by
  induction t with
  | nil => intro h; simp
  | cons x t ih =>
      intro h
      rw [List.foldl_cons]
      rcases List.mem_cons.1 (ih (max h x)) with h1 | h1
      · rw [h1]
        rcases max_choice h x with hc | hc <;> rw [hc]
        · exact List.mem_cons_self _ _
        · exact List.mem_cons_of_mem _ (List.mem_cons_self _ _)
      · exact List.mem_cons_of_mem _ (List.mem_cons_of_mem _ h1)

theorem mem_le_foldl_max (t : List Int) :
    ∀ (h a : Int), a ∈ h :: t → a ≤ t.foldl max h := by
  induction t with
  | nil => intro h a ha; simp at ha; simp [ha]
  | cons x t ih =>
      intro h a ha
      rcases (by simpa using ha) with h1 | h1 | h1
      · exact le_foldl_max t (max h x) a (h1 ▸ le_max_left h x)
      · exact le_foldl_max t (max h x) a (h1 ▸ le_max_right h x)
      · exact ih (max h x) a (List.mem_cons_of_mem _ h1)

theorem pyMax_mem (l : List Int) (h : l ≠ []) : pyMax l ∈ l := by
  cases l with
  | nil => exact absurd rfl h
  | cons x t => exact foldl_max_mem t x

theorem pyMax_ge (l : List Int) (a : Int) (ha : a ∈ l) : a ≤ pyMax l := by
  cases l with
  | nil => cases ha
  | cons x t => exact mem_le_foldl_max t x a ha

/-! ## Cache-key lemmas -/

theorem splitFirst_append (c : Char) (xs ys : List Char) (h : c ∉ xs) :
    splitFirst c (xs ++ c :: ys) = some (xs, ys) := by
  induction xs with
  | nil => simp [splitFirst]
  | cons x xs ih =>
      have hx : ¬x = c := fun hh => h (by simp [hh])
      have hrest : c ∉ xs := fun hh => h (List.mem_cons_of_mem _ hh)
      simp [splitFirst, hx, ih hrest]

theorem make_key_data (o n r s : String) :
    (make_key o n r s).data =
      o.data ++ '/' :: (n.data ++ '@' :: (r.data ++ '#' :: s.data)) := by
  simp [make_key, String.data_append]

theorem parseKey_make_key (o n r s : String)
    (h1 : '/' ∉ o.data) (h2 : '@' ∉ n.data) (h3 : '#' ∉ r.data) :
    parseKey (make_key o n r s).data = some (o.data, n.data, r.data, s.data) := by
  rw [make_key_data, parseKey]
  rw [splitFirst_append _ _ _ h1]
  simp only
  rw [splitFirst_append _ _ _ h2]
  simp only
  rw [splitFirst_append _ _ _ h3]

theorem make_key_inj (o n r s o2 n2 r2 s2 : String)
    (h1 : '/' ∉ o.data) (h2 : '@' ∉ n.data) (h3 : '#' ∉ r.data)
    (h4 : '/' ∉ o2.data) (h5 : '@' ∉ n2.data) (h6 : '#' ∉ r2.data)
    (heq : make_key o n r s = make_key o2 n2 r2 s2) :
    o = o2 ∧ n = n2 ∧ r = r2 ∧ s = s2 := by
  have hdata : (make_key o n r s).data = (make_key o2 n2 r2 s2).data := by
    rw [heq]
  have hp : parseKey (make_key o n r s).data = parseKey (make_key o2 n2 r2 s2).data := by
    rw [hdata]
  rw [parseKey_make_key o n r s h1 h2 h3, parseKey_make_key o2 n2 r2 s2 h4 h5 h6] at hp
  obtain ⟨ho, hn, hr, hs⟩ := by simpa using hp
  refine ⟨?_, ?_, ?_, ?_⟩ <;> apply String.ext <;> assumption

theorem assocFind_of_mem_nodup {α β : Type} [DecidableEq α]
    (m : List (α × β)) (k : α) (v : β)
    (hnd : (keysOf m).Nodup) (hmem : (k, v) ∈ m) :
    assocFind m k = some v := by
  induction m with
  | nil => cases hmem
  | cons p rest ih =>
      obtain ⟨k', v'⟩ := p
      rcases List.mem_cons.1 hmem with h1 | h1
      · injection h1 with hk2 hv2
        subst hk2
        subst hv2
        simp [assocFind]
      · have hk : k ∈ keysOf rest := by
          simpa [keysOf] using List.mem_map_of_mem Prod.fst h1
        have hnd2 : (keysOf rest).Nodup ∧ k' ∉ keysOf rest := by
          constructor
          · exact (List.nodup_cons.1 (by simpa [keysOf] using hnd)).2
          · exact (List.nodup_cons.1 (by simpa [keysOf] using hnd)).1
        have hne : ¬k' = k := fun hh => hnd2.2 (hh ▸ hk)
        simp [assocFind, hne, ih hnd2.1 h1]

/-! ## Claim theorems -/

/-- C1.  The deduplication pass builds a map keyed by
(package name, package version, CVE id) when the CVE id is present and by
(package name, package version, backend-native id) otherwise; the first
record seen for a key is inserted as-is, and each later record with the
same key replaces the kept one exactly when the first of the fixed-order
rules (CVSS score, then fixed version, then summary, incoming has it and
kept lacks it) matches, with no cascading.  Stated as: the spec-side key
and replacement rule coincide with the code's, and the value the built
map holds at any key is the spec-side survivor of exactly the input
records carrying that key, in input order. -/
theorem claim_C1_dedup_keyed_map (vs : List Vulnerability) (k : String × String × String) :
    specReplace = replacePref ∧
    (∀ v : Vulnerability, specKey v = vulnKey v) ∧
    assocFind (dedupMap vs) k = specSurvivor (vs.filter (fun v => specKey v = k)) := by
  refine ⟨rfl, specKey_eq_vulnKey, ?_⟩
  have h := foldl_dedupInsert_find vs [] k
  simpa [dedupMap, assocFind, specKey_eq_vulnKey] using h

/-- Witness for C1 at a concrete input: two records share the key
("p", "1", "CVE-1"); the survivor at that key is the second record, which
backfilled the missing CVSS score, and the unrelated key ("q", "2", "B")
holds its only record. -/
theorem claim_C1_dedup_keyed_map_witness :
    assocFind
        (dedupMap
          [Vulnerability.mk "p" "1" "e" "A" (some "CVE-1") "UNKNOWN" none none
            none none "osv",
           Vulnerability.mk "q" "2" "e" "B" none "UNKNOWN" none none none
            none "osv",
           Vulnerability.mk "p" "1" "e" "A" (some "CVE-1") "HIGH" (some 7) none
            none none "github"])
        ("p", "1", "CVE-1") =
      specSurvivor
        (List.filter (fun v => specKey v = ("p", "1", "CVE-1"))
          [Vulnerability.mk "p" "1" "e" "A" (some "CVE-1") "UNKNOWN" none none
            none none "osv",
           Vulnerability.mk "q" "2" "e" "B" none "UNKNOWN" none none none
            none "osv",
           Vulnerability.mk "p" "1" "e" "A" (some "CVE-1") "HIGH" (some 7) none
            none none "github"]) :=
  (claim_C1_dedup_keyed_map
    [Vulnerability.mk "p" "1" "e" "A" (some "CVE-1") "UNKNOWN" none none
      none none "osv",
     Vulnerability.mk "q" "2" "e" "B" none "UNKNOWN" none none none
      none "osv",
     Vulnerability.mk "p" "1" "e" "A" (some "CVE-1") "HIGH" (some 7) none
      none none "github"]
    ("p", "1", "CVE-1")).2.2

/-- C8.  Deduplication is idempotent: on a list that is already its own
dedup output, the pass re-inserts every record under a fresh key and
changes nothing. -/
theorem claim_C8_dedup_idempotent (vs : List Vulnerability) :
    deduplicate_vulnerabilities (deduplicate_vulnerabilities vs) =
      deduplicate_vulnerabilities vs := by
  have hgood : ∀ p ∈ dedupMap vs, vulnKey p.2 = p.1 :=
    goodMap_foldl vs [] (by intro p hp; cases hp)
  have hkeys : keysOf (dedupMap vs) = (vs.map vulnKey).foldl addNew [] := by
    rw [dedupMap, keysOf_foldl_dedupInsert]
    simp [keysOf, List.foldl_map]
  have hnodup : (keysOf (dedupMap vs)).Nodup := by
    rw [hkeys]
    exact nodup_foldl_addKey (vs.map vulnKey) [] List.nodup_nil
  have hre := foldl_dedupInsert_rebuild (dedupMap vs) [] hgood
    (by simpa [keysOf] using hnodup)
  calc deduplicate_vulnerabilities (deduplicate_vulnerabilities vs)
      = (((dedupMap vs).map Prod.snd).foldl dedupInsert []).map Prod.snd := rfl
    _ = ([] ++ dedupMap vs).map Prod.snd := by rw [hre]
    _ = deduplicate_vulnerabilities vs := by simp [deduplicate_vulnerabilities]

/-- C9.  For a fixed input ordering, the dedup output lists the surviving
record of each key in the insertion order of that key's first occurrence:
the output's key sequence is exactly the first-occurrence sequence of the
input's keys, and every output record is the survivor of its key's
occurrences.  (The function is pure, so the output is identical on every
run with the same input.) -/
theorem claim_C9_dedup_order (vs : List Vulnerability) :
    (deduplicate_vulnerabilities vs).map vulnKey = firstOccs (vs.map vulnKey) ∧
    ∀ v ∈ deduplicate_vulnerabilities vs,
      specSurvivor (vs.filter (fun w => vulnKey w = vulnKey v)) = some v := by
  have hgood : ∀ p ∈ dedupMap vs, vulnKey p.2 = p.1 :=
    goodMap_foldl vs [] (by intro p hp; cases hp)
  have hkeys : keysOf (dedupMap vs) = (vs.map vulnKey).foldl addNew [] := by
    rw [dedupMap, keysOf_foldl_dedupInsert]
    simp [keysOf, List.foldl_map]
  have hnodup : (keysOf (dedupMap vs)).Nodup := by
    rw [hkeys]
    exact nodup_foldl_addKey (vs.map vulnKey) [] List.nodup_nil
  constructor
  · have hcomp : (deduplicate_vulnerabilities vs).map vulnKey =
        (dedupMap vs).map (fun p => vulnKey p.2) := by
      simp [deduplicate_vulnerabilities, List.map_map, Function.comp]
    rw [hcomp, List.map_congr_left hgood]
    rw [show (dedupMap vs).map Prod.fst = keysOf (dedupMap vs) from rfl, hkeys]
    rfl
  · intro v hv
    rcases List.mem_map.1 hv with ⟨p, hp, hpv⟩
    have hkv : vulnKey v = p.1 := by
      rw [← hpv]
      exact hgood p hp
    have hfind : assocFind (dedupMap vs) (vulnKey v) = some v := by
      rw [hkv]
      apply assocFind_of_mem_nodup _ _ _ hnodup
      have : p = (p.1, v) := by
        rw [← hpv]
      rw [← this]
      exact hp
    have h := foldl_dedupInsert_find vs [] (vulnKey v)
    rw [← (by simpa [dedupMap, assocFind] using h : assocFind (dedupMap vs) (vulnKey v) = specSurvivor (vs.filter (fun w => vulnKey w = vulnKey v)))]
    exact hfind

/-- Witness for C9 at a concrete input: the output key sequence is the
first-occurrence sequence of the input keys, and the survivor of the
duplicated key is the record kept by the rules. -/
theorem claim_C9_dedup_order_witness :
    (deduplicate_vulnerabilities
        [Vulnerability.mk "p" "1" "e" "A" (some "CVE-1") "UNKNOWN" none none
          none none "osv",
         Vulnerability.mk "q" "2" "e" "B" none "UNKNOWN" none none none
          none "osv",
         Vulnerability.mk "p" "1" "e" "A" (some "CVE-1") "HIGH" (some 7) none
          none none "github"]).map vulnKey =
      firstOccs
        (List.map vulnKey
          [Vulnerability.mk "p" "1" "e" "A" (some "CVE-1") "UNKNOWN" none none
            none none "osv",
           Vulnerability.mk "q" "2" "e" "B" none "UNKNOWN" none none none
            none "osv",
           Vulnerability.mk "p" "1" "e" "A" (some "CVE-1") "HIGH" (some 7) none
            none none "github"]) ∧
    specSurvivor
        (List.filter
          (fun w => vulnKey w =
            vulnKey (Vulnerability.mk "p" "1" "e" "A" (some "CVE-1") "HIGH"
              (some 7) none none none "github"))
          [Vulnerability.mk "p" "1" "e" "A" (some "CVE-1") "UNKNOWN" none none
            none none "osv",
           Vulnerability.mk "q" "2" "e" "B" none "UNKNOWN" none none none
            none "osv",
           Vulnerability.mk "p" "1" "e" "A" (some "CVE-1") "HIGH" (some 7) none
            none none "github"]) =
      some (Vulnerability.mk "p" "1" "e" "A" (some "CVE-1") "HIGH" (some 7)
        none none none "github") :=
  ⟨(claim_C9_dedup_order
      [Vulnerability.mk "p" "1" "e" "A" (some "CVE-1") "UNKNOWN" none none
        none none "osv",
       Vulnerability.mk "q" "2" "e" "B" none "UNKNOWN" none none none
        none "osv",
       Vulnerability.mk "p" "1" "e" "A" (some "CVE-1") "HIGH" (some 7) none
        none none "github"]).1,
   (claim_C9_dedup_order
      [Vulnerability.mk "p" "1" "e" "A" (some "CVE-1") "UNKNOWN" none none
        none none "osv",
       Vulnerability.mk "q" "2" "e" "B" none "UNKNOWN" none none none
        none "osv",
       Vulnerability.mk "p" "1" "e" "A" (some "CVE-1") "HIGH" (some 7) none
        none none "github"]).2
     (Vulnerability.mk "p" "1" "e" "A" (some "CVE-1") "HIGH" (some 7) none
       none none "github")
     (by decide)⟩

/-- C2.  A backend invocation that raises instead of returning a
`ScanOutcome` is caught and recorded as a synthetic failed outcome —
status `"failed"`, zero vulnerabilities found, execution time zero, the
exception text as error — while every backend's entry is a function of
its own result alone (the `scanner_results` are exactly the per-backend
map of `entryOfResult`), and the raising backend contributes no
vulnerabilities to the merged pool. -/
theorem claim_C2_exception_isolated (preference : String)
    (registry : List (String × BackendResult)) (name msg : String)
    (h : (name, Except.error msg) ∈ scannersToRun preference registry) :
    (name, ScannerEntry.mk "failed" 0 0 (some msg)) ∈
      (scan_repository preference registry).scanner_results ∧
    (scan_repository preference registry).scanner_results =
      (scannersToRun preference registry).map (fun p => (p.1, entryOfResult p.2)) ∧
    vulnsOfResult (Except.error msg) = [] := by
  refine ⟨?_, rfl, rfl⟩
  have hmem := List.mem_map_of_mem
    (fun p : String × BackendResult => (p.1, entryOfResult p.2)) h
  exact hmem

/-- Witness for C2 at a concrete registry: the `osv` backend raises
`"boom"`, the `github` backend completes; the synthetic failed entry for
`osv` appears in the consolidated results. -/
theorem claim_C2_exception_isolated_witness :
    ("osv", ScannerEntry.mk "failed" 0 0 (some "boom")) ∈
      (scan_repository "both"
        [("osv", (Except.error "boom" : BackendResult)),
         ("github", Except.ok (ScannerOutput.mk "completed" [] 5 none))]).scanner_results :=
  (claim_C2_exception_isolated "both"
    [("osv", (Except.error "boom" : BackendResult)),
     ("github", Except.ok (ScannerOutput.mk "completed" [] 5 none))]
    "osv" "boom" (by decide)).1

/-- Counterexample to C3 as stated: with a selection containing no valid
backends the orchestrator does not fail as a whole — `scan_repository`
returns an (empty) `ConsolidatedResult`. -/
theorem counterexample_C3_empty_selection_returns :
    scan_repository "both" [] = ConsolidatedResult.mk [] [] := by decide

/-- C3 as amended.  `scan_repository` never fails as a whole: it is a
total function of its inputs, and even when every selected backend raised
or reported `failed`/`timeout` it returns a `ConsolidatedResult` that
records each selected backend's entry, every recorded status being
`failed` or `timeout`. -/
theorem claim_C3_amended_never_fails (preference : String)
    (registry : List (String × BackendResult))
    (h : ∀ p ∈ scannersToRun preference registry, failedOrTimeout p.2 = true) :
    (scan_repository preference registry).scanner_results =
      (scannersToRun preference registry).map (fun p => (p.1, entryOfResult p.2)) ∧
    ((scan_repository preference registry).scanner_results.all
      (fun q => q.2.status == "failed" || q.2.status == "timeout")) = true := by
  refine ⟨rfl, ?_⟩
  rw [List.all_eq_true]
  intro q hq
  have hq2 : q ∈ (scannersToRun preference registry).map
      (fun p => (p.1, entryOfResult p.2)) := hq
  rcases List.mem_map.1 hq2 with ⟨p, hp, hpe⟩
  have hft := h p hp
  subst hpe
  cases hres : p.2 with
  | error e => simp [entryOfResult]
  | ok o =>
      rw [hres] at hft
      simp only [failedOrTimeout] at hft
      rcases Bool.or_eq_true_iff.1 hft with h1 | h1
      · simp [entryOfResult, of_decide_eq_true h1]
      · simp [entryOfResult, of_decide_eq_true h1]

/-- Witness for the amended C3 at a concrete registry: one backend times
out, the other raises; the call still returns, recording both entries
with failure statuses. -/
theorem claim_C3_amended_never_fails_witness :
    (scan_repository "both"
      [("osv", (Except.ok (ScannerOutput.mk "timeout" [] 7
          (some "Scanner execution timed out")) : BackendResult)),
       ("github", Except.error "boom")]).scanner_results =
      (scannersToRun "both"
        [("osv", (Except.ok (ScannerOutput.mk "timeout" [] 7
            (some "Scanner execution timed out")) : BackendResult)),
         ("github", Except.error "boom")]).map
        (fun p => (p.1, entryOfResult p.2)) ∧
    ((scan_repository "both"
      [("osv", (Except.ok (ScannerOutput.mk "timeout" [] 7
          (some "Scanner execution timed out")) : BackendResult)),
       ("github", Except.error "boom")]).scanner_results.all
      (fun q => q.2.status == "failed" || q.2.status == "timeout")) = true :=
  claim_C3_amended_never_fails "both"
    [("osv", (Except.ok (ScannerOutput.mk "timeout" [] 7
        (some "Scanner execution timed out")) : BackendResult)),
     ("github", Except.error "boom")]
    (by decide)

/-- Counterexample to C7 as stated: the selection mechanism cannot invoke
a backend registered under any name other than `"osv"`/`"github"` — no
preference string selects exactly the registered `"snyk"` backend, so
arbitrary subsets of the registered backends are not supported. -/
theorem counterexample_C7_subset_unreachable :
    ¬∃ preference : String,
      (scannersToRun preference
        [("osv", (Except.error "e1" : BackendResult)),
         ("github", Except.error "e2"),
         ("snyk", Except.error "e3")]).map Prod.fst = ["snyk"] := by
  rintro ⟨pref, h⟩
  unfold scannersToRun at h
  by_cases h1 : pref = "osv" ∨ pref = "both"
  · rw [if_pos h1] at h
    by_cases h2 : pref = "github" ∨ pref = "both"
    · rw [if_pos h2] at h
      exact absurd h (by decide)
    · rw [if_neg h2] at h
      exact absurd h (by decide)
  · rw [if_neg h1] at h
    by_cases h2 : pref = "github" ∨ pref = "both"
    · rw [if_pos h2] at h
      exact absurd h (by decide)
    · rw [if_neg h2] at h
      exact absurd h (by decide)

/-- C7 as amended.  Backend selection recognizes exactly the three
preference strings `"osv"`, `"github"` and `"both"`: every selected
backend is one registered under `"osv"` or `"github"`, a single-name
preference selects only that backend, and any other preference string
selects no backend at all. -/
theorem claim_C7_amended_fixed_choices (preference : String)
    (registry : List (String × BackendResult))
    (h : ¬(preference = "osv" ∨ preference = "github" ∨ preference = "both")) :
    scannersToRun preference registry = [] ∧
    ((scannersToRun "both" registry).map Prod.fst).all
      (fun x => x == "osv" || x == "github") = true ∧
    ((scannersToRun "osv" registry).map Prod.fst).all (fun x => x == "osv") = true ∧
    ((scannersToRun "github" registry).map Prod.fst).all
      (fun x => x == "github") = true := by
  have e1 : ¬(preference = "osv" ∨ preference = "both") := by
    rintro (hh | hh)
    · exact h (Or.inl hh)
    · exact h (Or.inr (Or.inr hh))
  have e2 : ¬(preference = "github" ∨ preference = "both") := by
    rintro (hh | hh)
    · exact h (Or.inr (Or.inl hh))
    · exact h (Or.inr (Or.inr hh))
  refine ⟨?_, ?_, ?_, ?_⟩
  · unfold scannersToRun
    rw [if_neg e1, if_neg e2]
    rfl
  · unfold scannersToRun
    rw [if_pos (Or.inr rfl), if_pos (Or.inr rfl)]
    cases hosv : assocFind registry "osv" <;>
      cases hgit : assocFind registry "github" <;> simp
  · unfold scannersToRun
    rw [if_pos (Or.inl rfl), if_neg (by decide)]
    cases hosv : assocFind registry "osv" <;> simp
  · unfold scannersToRun
    rw [if_neg (by decide), if_pos (Or.inl rfl)]
    cases hgit : assocFind registry "github" <;> simp

/-- Witness for the amended C7 at a concrete preference and registry: the
preference `"all"` is not one of the three recognized strings and selects
nothing. -/
theorem claim_C7_amended_fixed_choices_witness :
    scannersToRun "all" [("osv", (Except.error "e1" : BackendResult))] = [] ∧
    ((scannersToRun "both" [("osv", (Except.error "e1" : BackendResult))]).map
      Prod.fst).all (fun x => x == "osv" || x == "github") = true ∧
    ((scannersToRun "osv" [("osv", (Except.error "e1" : BackendResult))]).map
      Prod.fst).all (fun x => x == "osv") = true ∧
    ((scannersToRun "github" [("osv", (Except.error "e1" : BackendResult))]).map
      Prod.fst).all (fun x => x == "github") = true :=
  claim_C7_amended_fixed_choices "all" [("osv", (Except.error "e1" : BackendResult))]
    (by decide)

/-- Counterexample to C4 as stated: a present CVSS score of `0.0` does
not map to LOW — the truthiness guard `if cvss_score:` skips the
threshold ladder, leaving severity `"UNKNOWN"` while the score is
recorded. -/
theorem counterexample_C4_zero_score :
    extract_severity [SeverityEntry.mk "CVSS_V3" (some 0)] = ("UNKNOWN", some 0) ∧
    ("UNKNOWN" : String) ≠ "LOW" := by
  exact ⟨rfl, by decide⟩

/-- C4 as amended.  Severity is taken from the first `CVSS_V3` severity
entry: score `>= 9.0` maps to CRITICAL, `>= 7.0` to HIGH, `>= 4.0` to
MODERATE, any other present non-zero score to LOW, and an absent or zero
score leaves UNKNOWN (boundary values map to the higher bucket); with no
`CVSS_V3` entry at all the result is UNKNOWN with no score. -/
theorem claim_C4_amended_severity_thresholds (pre post : List SeverityEntry)
    (sc : Option ℚ)
    (hpre : pre.all (fun e => e.type ≠ "CVSS_V3") = true) :
    extract_severity (pre ++ SeverityEntry.mk "CVSS_V3" sc :: post) =
      (match sc with
       | none => ("UNKNOWN", none)
       | some s =>
           if s = 0 then ("UNKNOWN", some s)
           else if s ≥ 9 then ("CRITICAL", some s)
           else if s ≥ 7 then ("HIGH", some s)
           else if s ≥ 4 then ("MODERATE", some s)
           else ("LOW", some s)) ∧
    extract_severity pre = ("UNKNOWN", none) := by
  induction pre with
  | nil =>
      constructor
      · rw [List.nil_append]
        cases sc with
        | none => rfl
        | some s =>
            by_cases hs : s = 0
            · simp [extract_severity, hs]
            · by_cases h9 : s ≥ 9
              · simp [extract_severity, severityBucket, hs, h9]
              · by_cases h7 : s ≥ 7
                · simp [extract_severity, severityBucket, hs, h9, h7]
                · by_cases h4 : s ≥ 4
                  · simp [extract_severity, severityBucket, hs, h9, h7, h4]
                  · simp [extract_severity, severityBucket, hs, h9, h7, h4]
      · rfl
  | cons e pre ih =>
      rw [List.all_cons, Bool.and_eq_true] at hpre
      obtain ⟨he, hpre2⟩ := hpre
      have hne : ¬e.type = "CVSS_V3" := by simpa using he
      obtain ⟨ih1, ih2⟩ := ih hpre2
      constructor
      · rw [List.cons_append]
        simpa [extract_severity, hne] using ih1
      · simpa [extract_severity, hne] using ih2

/-- Witness for the amended C4: a non-`CVSS_V3` entry is skipped, the
boundary score 7.0 maps to HIGH; a list with no `CVSS_V3` entry yields
UNKNOWN with no score. -/
theorem claim_C4_amended_severity_thresholds_witness :
    extract_severity
        (List.cons (SeverityEntry.mk "other" (some 3))
          (List.cons (SeverityEntry.mk "CVSS_V3" (some 7)) List.nil)) =
      ("HIGH", some 7) ∧
    extract_severity [SeverityEntry.mk "other" (some 3)] = ("UNKNOWN", none) := by
  have h := claim_C4_amended_severity_thresholds
    [SeverityEntry.mk "other" (some 3)] [] (some 7) (by decide)
  exact ⟨h.1.trans (by decide), h.2⟩

/-- Counterexample to C5 as stated: the key serialization
`owner/name@ref#sha` is ambiguous, so two tuples differing in owner and
name derive the same key, and a get with the changed tuple after a set
with the original is a hit, not a miss. -/
theorem counterexample_C5_separator_collision :
    (("a/b", "c", "r", "s") : String × String × String × String) ≠
      ("a", "b/c", "r", "s") ∧
    make_key "a/b" "c" "r" "s" = make_key "a" "b/c" "r" "s" ∧
    cache_get (cache_set ([] : List (String × Nat)) "a/b" "c" "r" "s" 42)
      "a" "b/c" "r" "s" = some 42 := by
  refine ⟨by decide, by decide, by decide⟩

/-- C5 as amended.  `set` followed by `get` with the identical
(owner, name, ref, commitSHA) tuple returns the exact stored value, from
any cache state; and for tuples whose components avoid the serialization
separators (`/` in owner, `@` in name, `#` in ref), differing in at least
one component, the derived keys differ and the cross get is a miss. -/
theorem claim_C5_amended_cache_roundtrip {α : Type} (cache : List (String × α))
    (v : α) (o n r s o2 n2 r2 s2 : String)
    (h1 : '/' ∉ o.data) (h2 : '@' ∉ n.data) (h3 : '#' ∉ r.data)
    (h4 : '/' ∉ o2.data) (h5 : '@' ∉ n2.data) (h6 : '#' ∉ r2.data)
    (hne : ¬(o = o2 ∧ n = n2 ∧ r = r2 ∧ s = s2)) :
    cache_get (cache_set cache o n r s v) o n r s = some v ∧
    make_key o n r s ≠ make_key o2 n2 r2 s2 ∧
    cache_get (cache_set [] o n r s v) o2 n2 r2 s2 = none := by
  have hneq : make_key o n r s ≠ make_key o2 n2 r2 s2 := fun hh =>
    hne (make_key_inj o n r s o2 n2 r2 s2 h1 h2 h3 h4 h5 h6 hh)
  refine ⟨?_, hneq, ?_⟩
  · simp [cache_get, cache_set, assocFind_setAssoc]
  · simp [cache_get, cache_set, setAssoc, assocFind, hneq]

/-- Witness for the amended C5 at concrete separator-free tuples differing
only in the commit SHA. -/
theorem claim_C5_amended_cache_roundtrip_witness :
    cache_get (cache_set ([] : List (String × Nat)) "octo" "hello" "main" "abc" 7)
      "octo" "hello" "main" "abc" = some 7 ∧
    make_key "octo" "hello" "main" "abc" ≠ make_key "octo" "hello" "main" "abd" ∧
    cache_get (cache_set ([] : List (String × Nat)) "octo" "hello" "main" "abc" 7)
      "octo" "hello" "main" "abd" = none :=
  claim_C5_amended_cache_roundtrip [] 7 "octo" "hello" "main" "abc"
    "octo" "hello" "main" "abd"
    (by decide) (by decide) (by decide) (by decide) (by decide) (by decide)
    (by decide)

/-- C6: the claim states the calculator reports mean, median and max of
the whole-day ages whenever at least one vulnerability carries a
publication timestamp — but evaluated at exactly such an input the code
raises instead.  `calculate_metrics` subtracts the timezone-aware
`published_at` the OSV backend produces (its `_extract_published_date`
parses with a `+00:00` offset) from the timezone-naive
`datetime.utcnow()`, a Python `TypeError`; the same instant carried by a
naive datetime subtracts fine, pinning the fault on the naive/aware mix,
not the data. -/
theorem claim_C6_typeerror_on_aware_timestamp :
    temporal_metrics (utcnow (86400 * 20))
        [Vulnerability.mk "a" "1" "e" "x" none "UNKNOWN" none none
          (some (extract_published_date (86400 * 19))) none "osv"] =
      Except.error
        "TypeError: cannot subtract offset-naive and offset-aware datetimes" ∧
    vulnAges (utcnow (86400 * 20))
        [Vulnerability.mk "a" "1" "e" "x" none "UNKNOWN" none none
          (some (PyDatetime.mk (86400 * 19) false)) none "osv"] =
      Except.ok [1] := by
  exact ⟨rfl, rfl⟩

/-- C10.  Field presence in deduplication is Python truthiness, not a
`None` check: a CVSS score of `0.0` and an empty string are treated as
lacking, so an incoming record with score `0.0` never fires the CVSS rule
against a kept record without a score (and, lacking a truthy fixed
version and summary too, never replaces at all), and a record whose CVE
id is the empty string is keyed by its backend-native vulnerability
id. -/
theorem claim_C10_truthiness (inc kept other : Vulnerability)
    (hzero : inc.cvss_score = some 0)
    (hfx : inc.fixed_version.getD "" = "")
    (hsm : inc.summary.getD "" = "")
    (hcve : other.cve_id = some "") :
    (truthyScore inc.cvss_score && !truthyScore kept.cvss_score) = false ∧
    replacePref inc kept = false ∧
    vulnKey other = (other.package_name, other.package_version,
      other.vulnerability_id) ∧
    truthyScore (some (0 : ℚ)) = false ∧
    truthyStr (some "") = false := by
  have h1 : truthyScore inc.cvss_score = false := by
    rw [hzero]
    simp [truthyScore]
  have h2 : truthyStr inc.fixed_version = false := by
    cases hh : inc.fixed_version with
    | none => simp [truthyStr]
    | some x =>
        have hx : x = "" := by simpa [hh] using hfx
        simp [truthyStr, hx]
  have h3 : truthyStr inc.summary = false := by
    cases hh : inc.summary with
    | none => simp [truthyStr]
    | some x =>
        have hx : x = "" := by simpa [hh] using hsm
        simp [truthyStr, hx]
  refine ⟨by simp [h1], ?_, ?_, by simp [truthyScore], by simp [truthyStr]⟩
  · simp [replacePref, h1, h2, h3]
  · simp [vulnKey, truthyStr, hcve]

/-- Witness for C10 at concrete records: incoming has score `0.0` and an
empty-string fixed version, kept has nothing, and a record with CVE id
`""` is keyed by its OSV id. -/
theorem claim_C10_truthiness_witness :
    (truthyScore (Vulnerability.mk "p" "1" "e" "A" none "UNKNOWN" (some 0) none
        none (some "") "osv").cvss_score &&
      !truthyScore (Vulnerability.mk "p" "1" "e" "A" none "UNKNOWN" none none
        none none "github").cvss_score) = false ∧
    replacePref
      (Vulnerability.mk "p" "1" "e" "A" none "UNKNOWN" (some 0) none none
        (some "") "osv")
      (Vulnerability.mk "p" "1" "e" "A" none "UNKNOWN" none none none none
        "github") = false ∧
    vulnKey (Vulnerability.mk "p" "1" "e" "B" (some "") "UNKNOWN" none none
      none none "osv") = ("p", "1", "B") ∧
    truthyScore (some (0 : ℚ)) = false ∧
    truthyStr (some "") = false :=
  claim_C10_truthiness
    (Vulnerability.mk "p" "1" "e" "A" none "UNKNOWN" (some 0) none none
      (some "") "osv")
    (Vulnerability.mk "p" "1" "e" "A" none "UNKNOWN" none none none none
      "github")
    (Vulnerability.mk "p" "1" "e" "B" (some "") "UNKNOWN" none none none none
      "osv")
    (by decide) (by decide) (by decide) (by decide)

end OssHealth
